import Mathlib

/-!
Verification development for the CodexMonitor web-gateway browser console
(single script, IIFE). The script keeps a global mutable `state`
(token, workspaces, activeWorkspaceId, threads, activeThreadId,
refreshThreadsTimer) and reconciles it against REST responses and
WebSocket push events. Here the relevant functions are embedded shallowly:
network payloads become explicit `Json` arguments, the mutable `state`
becomes explicit state records, `setTimeout` becomes an explicit
pending-timer slot with a separate `fire` step, and DOM writes
(render functions, badges, input mirroring) are omitted because they read
state but never feed back into it.
-/

namespace CodexMonitor

/-- `MAX_EVENT_LINES` from the script: capacity of the diagnostic event log. -/
def MAX_EVENT_LINES : Nat := 300

/-- `TOKEN_STORAGE_KEY` from the script: localStorage key for the credential. -/
def TOKEN_STORAGE_KEY : String := "codexmonitor.webGateway.token"

/-- The fixed delay (ms) armed by `scheduleRefreshThreads`. -/
def REFRESH_THREADS_DELAY : Nat := 600

/-- JSON values as delivered by `JSON.parse`. Object keys are unique
(duplicates cannot survive `JSON.parse`), so an association list with
first-match lookup is a faithful object model. Numbers are modelled as
integers; no claim depends on fractional values. -/
inductive Json where
  | null : Json
  | bool (b : Bool) : Json
  | num (n : Int) : Json
  | str (s : String) : Json
  | arr (elems : List Json) : Json
  | obj (fields : List (String × Json)) : Json
deriving Repr, Inhabited

/-- JavaScript truthiness of a JSON value: `null`, `false`, `0` and `""`
are falsy; every array and object is truthy. -/
def Json.truthy : Json → Bool
  | .null => false
  | .bool b => b
  | .num n => n != 0
  | .str s => s != ""
  | .arr _ => true
  | .obj _ => true

mutual
/-- JavaScript `String(v)` coercion on a JSON value: `null` prints "null",
booleans print their keyword, strings pass through, arrays join their
elements with commas, plain objects print "[object Object]". -/
def Json.jsToString : Json → String
  | .null => "null"
  | .bool true => "true"
  | .bool false => "false"
  | .num n => toString n
  | .str s => s
  | .arr elems => String.intercalate "," (Json.jsToStringList elems)
  | .obj _ => "[object Object]"

/-- Elementwise `String(...)` over a list of JSON values. -/
def Json.jsToStringList : List Json → List String
  | [] => []
  | x :: xs => Json.jsToString x :: Json.jsToStringList xs
end

/-- Property access `v.k`: a field lookup that yields a value only on
objects; `undefined` (absent field, or access on a non-object) is `none`. -/
def Json.get : Json → String → Option Json
  | .obj fields, key => fields.lookup key
  | _, _ => none

/-- `v.k` followed by a truthiness test, as in `payload && payload.error`:
yields the field only when it exists and is truthy. -/
def Json.getTruthy (v : Json) (key : String) : Option Json :=
  match v.get key with
  | some f => if f.truthy then some f else none
  | none => none

/-- An HTTP response as observed by `api()`: the success flag, status line
data, the body read as text, and the outcome of `JSON.parse` on that text
(`none` models a parse exception). -/
structure GatewayResponse where
  ok : Bool
  status : Nat
  statusText : String
  bodyText : String
  parsed : Option Json
deriving Repr

/-- The payload computed by `api()` before the success check: `null` for an
empty body, the decoded JSON for a decodable body, and `{raw: text}` when
decoding a non-empty body fails. -/
def apiPayload (r : GatewayResponse) : Option Json :=
  if r.bodyText = "" then none
  else
    match r.parsed with
    | some v => some v
    | none => some (.obj [("raw", .str r.bodyText)])

/-- The error message thrown by `api()` on a non-ok response:
`payload && payload.error ? String(payload.error) : status statusText`. -/
def apiErrorMessage (r : GatewayResponse) : String :=
  match apiPayload r with
  | some payload =>
    if payload.truthy then
      match payload.getTruthy "error" with
      | some e => e.jsToString
      | none => toString r.status ++ " " ++ r.statusText
    else toString r.status ++ " " ++ r.statusText
  | none => toString r.status ++ " " ++ r.statusText

/-- `api(path, options)` result semantics (lines 70-96 of the script):
`.error m` models a thrown `Error(m)`, `.ok p` models a normal return,
with `none` standing for the JS `null` return on an empty body. -/
def api (r : GatewayResponse) : Except String (Option Json) :=
  if r.ok then .ok (apiPayload r)
  else .error (apiErrorMessage r)

/-- `extractThreadList(rawResponse)`: accepts `{threads: [...]}`,
`{result: {data: [...]}}` or `{data: [...]}` and yields `[]` otherwise.
A JS array has `typeof === "object"` but carries none of those fields, so
it also yields `[]`; so does every primitive and `null`. -/
def extractThreadList (rawResponse : Json) : List Json :=
  match rawResponse with
  | .obj _ =>
    match rawResponse.get "threads" with
    | some (.arr threads) => threads
    | _ =>
      match rawResponse.getTruthy "result" with
      | some result =>
        match result.get "data" with
        | some (.arr data) => data
        | _ =>
          match rawResponse.get "data" with
          | some (.arr data) => data
          | _ => []
      | none =>
        match rawResponse.get "data" with
        | some (.arr data) => data
        | _ => []
  | _ => []

/-- `extractThreadId(thread)` = `String(thread?.id || "")`: a falsy or
absent `id` collapses to the empty string. -/
def extractThreadId (thread : Json) : String :=
  match thread.getTruthy "id" with
  | some v => v.jsToString
  | none => ""

/-- `String(w.id)` as used by the membership test in `renderWorkspaces`:
an absent field is JS `undefined`, which stringifies to "undefined". -/
def workspaceIdRaw (w : Json) : String :=
  match w.get "id" with
  | some v => v.jsToString
  | none => "undefined"

/-- `String(w.id || "")` as used for the first-workspace fallback in
`renderWorkspaces`: a falsy or absent `id` collapses to the empty string. -/
def workspaceIdOrEmpty (w : Json) : String :=
  match w.getTruthy "id" with
  | some v => v.jsToString
  | none => ""

/-- JavaScript `String.prototype.trim()`: strip whitespace from both ends,
modelled over the character list (the claims only exercise ASCII
whitespace, where JS and `Char.isWhitespace` agree). -/
def jsTrim (s : String) : String :=
  String.mk (((s.data.dropWhile Char.isWhitespace).reverse.dropWhile
    Char.isWhitespace).reverse)

/-- The data portion of the global `state` object touched by the refresh
and selection operations (the token, socket handle and timer slot are
modelled separately where a claim needs them). -/
structure AppState where
  workspaces : List Json
  activeWorkspaceId : String
  threads : List Json
  activeThreadId : String
deriving Repr

/-- The two reconciliation steps inlined in `refreshThreads` (lines
290-296): clear the active thread id when it is non-empty and no fetched
thread carries it, then default to the first fetched thread id when the
selection is empty and threads exist. -/
def reconcileActiveThreadId (prev : String) (threads : List Json) : String :=
  let afterClear :=
    if prev ≠ "" ∧ ¬ (threads.any fun t => extractThreadId t == prev) then ""
    else prev
  if afterClear = "" ∧ threads.length > 0 then extractThreadId threads.head!
  else afterClear

/-- `refreshThreads()` (lines 275-302) with the fetched `/api/threads`
payload passed in explicitly: with no active workspace it only clears the
thread collection; otherwise it replaces the collection wholesale from the
payload and reconciles the active thread id. -/
def refreshThreads (s : AppState) (payload : Json) : AppState :=
  if s.activeWorkspaceId = "" then
    { s with threads := [] }
  else
    let threads := extractThreadList payload
    { s with
      threads := threads
      activeThreadId := reconcileActiveThreadId s.activeThreadId threads }

/-- `renderWorkspaces()` (lines 158-180), state effect only: the DOM
`<option>` writes are dropped; with an empty collection the active
workspace id is cleared, otherwise the prior id is kept when some
workspace stringifies to it and the first workspace id is taken
otherwise. -/
def renderWorkspaces (s : AppState) : AppState :=
  match s.workspaces with
  | [] => { s with activeWorkspaceId := "" }
  | w0 :: _ =>
    let next :=
      if s.workspaces.any (fun w => workspaceIdRaw w == s.activeWorkspaceId) then
        s.activeWorkspaceId
      else workspaceIdOrEmpty w0
    { s with activeWorkspaceId := next }

/-- `Array.isArray(payload?.workspaces) ? payload.workspaces : []`
(line 262): the workspace collection carried by a `/api/workspaces`
payload. -/
def extractWorkspaceList (payload : Json) : List Json :=
  match payload.get "workspaces" with
  | some (.arr ws) => ws
  | _ => []

/-- `refreshWorkspaces()` (lines 260-273) with both fetched payloads passed
in explicitly: the workspace collection is replaced wholesale from the
`/api/workspaces` payload, `renderWorkspaces` reconciles the active id, and
the thread refresh runs only when an active workspace remains — otherwise
the thread collection is cleared without a fetch. -/
def refreshWorkspaces (s : AppState) (workspacesPayload : Json)
    (threadsPayload : Json) : AppState :=
  let s1 := renderWorkspaces { s with workspaces := extractWorkspaceList workspacesPayload }
  if s1.activeWorkspaceId ≠ "" then refreshThreads s1 threadsPayload
  else { s1 with threads := [] }

/-- The synchronous prefix of the `workspace-select` change handler
(lines 547-556): the active workspace id is overwritten with the selected
value and nothing else changes until the thread fetch completes. This is
the state visible while `refreshThreads()` awaits the network. -/
def workspaceSelectPre (s : AppState) (value : String) : AppState :=
  { s with activeWorkspaceId := value }

/-- The whole `workspace-select` change handler: switch the active
workspace, then run `refreshThreads` on the fetched payload. -/
def workspaceSelectChange (s : AppState) (value : String)
    (threadsPayload : Json) : AppState :=
  refreshThreads (workspaceSelectPre s value) threadsPayload

/-- State for the scheduler and push-event layer: the active selection
pair, the single timer slot `refreshThreadsTimer` (carrying the armed
delay when set), and an observation trace of the workspace ids for which
the timer callback actually issued a thread re-fetch. -/
structure SyncState where
  activeWorkspaceId : String
  activeThreadId : String
  refreshThreadsTimer : Option Nat
  fetchTrace : List String
deriving Repr, DecidableEq

/-- `scheduleRefreshThreads(workspaceId)` (lines 237-253), arm phase: the
request is dropped when the id is empty or differs from the active
workspace, or when a timer is already pending; otherwise the single timer
slot is armed with the fixed 600 ms delay. -/
def scheduleRefreshThreads (workspaceId : String) (s : SyncState) : SyncState :=
  if workspaceId = "" ∨ workspaceId ≠ s.activeWorkspaceId then s
  else if s.refreshThreadsTimer.isSome then s
  else { s with refreshThreadsTimer := some REFRESH_THREADS_DELAY }

/-- Expiry of the armed timer: the callback first clears the slot, then
runs `refreshThreads()`, which issues a `/api/threads` fetch exactly when a
workspace is active at fire time (the fetch target is recorded on the
trace; the state reconciliation itself is `refreshThreads` above and is
irrelevant to the scheduling claims). Without an armed timer there is
nothing to fire. -/
def fireRefreshTimer (s : SyncState) : SyncState :=
  match s.refreshThreadsTimer with
  | none => s
  | some _ =>
    let s1 := { s with refreshThreadsTimer := none }
    if s1.activeWorkspaceId ≠ "" then
      { s1 with fetchTrace := s1.fetchTrace ++ [s1.activeWorkspaceId] }
    else s1

/-- The `app-server-event` branch of the WebSocket message handler
(lines 454-474), state effect only (the event-log append is unconditional
and modelled separately): with a non-empty nested thread id and a
workspace id equal to the active workspace, the thread id is adopted when
no thread is active, and the refresh scheduler is invoked for that
workspace; otherwise the state is untouched. -/
def handleAppServerEvent (workspaceId threadId : String) (s : SyncState) : SyncState :=
  if threadId ≠ "" ∧ workspaceId = s.activeWorkspaceId then
    let s1 :=
      if s.activeThreadId = "" then { s with activeThreadId := threadId }
      else s
    scheduleRefreshThreads workspaceId s1
  else s

/-- The body of a `POST /api/threads/message` request. -/
structure SendMessageRequest where
  workspaceId : String
  threadId : String
  text : String
  accessMode : String
deriving Repr, DecidableEq

/-- The body of a `POST /api/threads/resume` request. -/
structure ResumeThreadRequest where
  workspaceId : String
  threadId : String
deriving Repr, DecidableEq

/-- `String((input && input.value) || fallback || "").trim()`: the input
field value wins when non-empty (a missing element reads as empty), else
the stored fallback, and the chosen value is trimmed afterwards. -/
def resolveThreadId (inputValue fallback : String) : String :=
  jsTrim (if inputValue ≠ "" then inputValue else fallback)

/-- `sendMessage()` (lines 338-369) up to its network call: each guard
throws synchronously, and only when all guards pass is a request body
built — a `.error` result therefore means no network request was issued.
The DOM reads are passed in as explicit input values. -/
def sendMessage (s : AppState) (threadIdInput messageInput accessModeInput : String) :
    Except String SendMessageRequest :=
  if s.activeWorkspaceId = "" then .error "Select a workspace first"
  else
    let threadId := resolveThreadId threadIdInput s.activeThreadId
    if threadId = "" then .error "Select a thread first"
    else
      let text := jsTrim messageInput
      if text = "" then .error "Enter a message first"
      else
        let accessMode := if accessModeInput ≠ "" then accessModeInput else "current"
        .ok ⟨s.activeWorkspaceId, threadId, text, accessMode⟩

/-- `resumeThread()` (lines 322-336) up to its network call, with the same
reading of `.error` as for `sendMessage`. -/
def resumeThread (s : AppState) (threadIdInput : String) :
    Except String ResumeThreadRequest :=
  if s.activeWorkspaceId = "" then .error "Select a workspace first"
  else
    let threadId := resolveThreadId threadIdInput s.activeThreadId
    if threadId = "" then .error "Select a thread first"
    else .ok ⟨s.activeWorkspaceId, threadId⟩

/-- One rendered line of the event log (timestamp text, category label,
payload text). -/
structure EventLine where
  ts : String
  kind : String
  text : String
deriving Repr, DecidableEq

/-- The eviction loop of `appendEvent`: `while (childNodes.length >
MAX_EVENT_LINES) removeChild(lastChild)` — the log is newest-first, so
removing the last child drops the oldest entry. -/
def evictOldest (log : List EventLine) : List EventLine :=
  if _h : MAX_EVENT_LINES < log.length then evictOldest log.dropLast
  else log
termination_by log.length
decreasing_by
  simp only [List.length_dropLast]
  omega

/-- `appendEvent(kind, payload)` (lines 223-235), list content only: the
new line is prepended and the eviction loop trims the tail. -/
def appendEvent (log : List EventLine) (line : EventLine) : List EventLine :=
  evictOldest (line :: log)

/-- Credential state: the in-memory `state.token` and the persisted
localStorage content, modelled as an association list of key/value pairs
so that the fixed storage key is explicit. -/
structure TokenState where
  token : String
  storage : List (String × String)
deriving Repr, DecidableEq

/-- `localStorage.setItem(k, v)`: replaces any entry under `k`. -/
def storageSetItem (storage : List (String × String)) (k v : String) :
    List (String × String) :=
  (k, v) :: storage.filter (fun e => e.1 ≠ k)

/-- `localStorage.removeItem(k)`. -/
def storageRemoveItem (storage : List (String × String)) (k : String) :
    List (String × String) :=
  storage.filter (fun e => e.1 ≠ k)

/-- `localStorage.getItem(k)` (as `Option` rather than `null`). -/
def storageGetItem (storage : List (String × String)) (k : String) : Option String :=
  storage.lookup k

/-- The `saveTokenBtn` click handler (lines 494-502): the trimmed input
becomes the in-memory token; a non-empty token is persisted under
`TOKEN_STORAGE_KEY`, an empty one removes the persisted entry. -/
def saveTokenClick (s : TokenState) (inputValue : String) : TokenState :=
  let token := jsTrim inputValue
  { token := token
    storage :=
      if token ≠ "" then storageSetItem s.storage TOKEN_STORAGE_KEY token
      else storageRemoveItem s.storage TOKEN_STORAGE_KEY }

/-- The `clearTokenBtn` click handler (lines 504-511), state effect only
(it also blanks the input field): the in-memory token becomes empty and
the persisted entry is removed. -/
def clearTokenClick (s : TokenState) : TokenState :=
  { token := ""
    storage := storageRemoveItem s.storage TOKEN_STORAGE_KEY }

/-- `authHeaders(extra)` (lines 60-68): copy the caller headers, then set
`Authorization: Bearer <token>` only when a token is held. -/
def authHeaders (token : String) (extra : List (String × String)) :
    List (String × String) :=
  if token ≠ "" then
    ("Authorization", "Bearer " ++ token) :: extra.filter (fun e => e.1 ≠ "Authorization")
  else extra


/-! ## Reconciliation lemmas for `refreshThreads` -/

/-- `extractThreadId(threads[0])` guarded by emptiness: the id the
reconciliation defaults to. -/
def firstThreadId (ts : List Json) : String :=
  match ts with
  | [] => ""
  | t :: _ => extractThreadId t

/-- The `.some(...)` membership probe of the reconciliation agrees with
membership among the extracted thread ids. -/
lemma any_extractThreadId_iff (ts : List Json) (x : String) :
    (ts.any fun t => extractThreadId t == x) = true ↔ x ∈ ts.map extractThreadId := by
  simp only [List.any_eq_true, beq_iff_eq, List.mem_map]

/-- A non-empty previously active id carried by some fetched thread is kept. -/
lemma reconcileActiveThreadId_of_mem (prev : String) (ts : List Json)
    (hne : prev ≠ "") (hmem : prev ∈ ts.map extractThreadId) :
    reconcileActiveThreadId prev ts = prev := by
  have hany : (ts.any fun t => extractThreadId t == prev) = true :=
    (any_extractThreadId_iff ts prev).mpr hmem
  have hC1 : ¬ (prev ≠ "" ∧ ¬ (ts.any fun t => extractThreadId t == prev) = true) :=
    fun hc => hc.2 hany
  have hC2 : ¬ (prev = "" ∧ ts.length > 0) := fun hc => hne hc.1
  simp only [reconcileActiveThreadId]
  rw [if_neg hC1, if_neg hC2]

/-- A previously active id that is absent (or empty) gives way to the first
fetched thread id, or to the empty string on an empty collection. -/
lemma reconcileActiveThreadId_of_not_mem (prev : String) (ts : List Json)
    (h : prev ∉ ts.map extractThreadId ∨ prev = "") :
    reconcileActiveThreadId prev ts = firstThreadId ts := by
  have hA : (if prev ≠ "" ∧ ¬ (ts.any fun t => extractThreadId t == prev) = true
      then "" else prev) = "" := by
    by_cases hemp : prev = ""
    · by_cases hC1 : prev ≠ "" ∧ ¬ (ts.any fun t => extractThreadId t == prev) = true
      · rw [if_pos hC1]
      · rw [if_neg hC1]; exact hemp
    · have hnm : prev ∉ ts.map extractThreadId := h.resolve_right hemp
      have hany : ¬ (ts.any fun t => extractThreadId t == prev) = true :=
        fun ha => hnm ((any_extractThreadId_iff ts prev).mp ha)
      rw [if_pos ⟨hemp, hany⟩]
  simp only [reconcileActiveThreadId]
  rw [hA]
  cases ts with
  | nil =>
    have hC2 : ¬ (("" : String) = "" ∧ ([] : List Json).length > 0) :=
      fun hc => by simp at hc
    rw [if_neg hC2]
    rfl
  | cons t rest =>
    have hC2 : ("" : String) = "" ∧ (t :: rest).length > 0 := ⟨rfl, by simp⟩
    rw [if_pos hC2]
    rfl

/-- A non-empty reconciled id always belongs to the fetched collection. -/
lemma reconcileActiveThreadId_mem (prev : String) (ts : List Json)
    (h : reconcileActiveThreadId prev ts ≠ "") :
    reconcileActiveThreadId prev ts ∈ ts.map extractThreadId := by
  simp only [reconcileActiveThreadId] at h ⊢
  by_cases hC1 : prev ≠ "" ∧ ¬ (ts.any fun t => extractThreadId t == prev) = true
  · rw [if_pos hC1] at h ⊢
    cases ts with
    | nil =>
      have hC2 : ¬ (("" : String) = "" ∧ ([] : List Json).length > 0) :=
        fun hc => by simp at hc
      rw [if_neg hC2] at h
      exact absurd rfl h
    | cons t rest =>
      have hC2 : ("" : String) = "" ∧ (t :: rest).length > 0 := ⟨rfl, by simp⟩
      rw [if_pos hC2]
      exact List.mem_map_of_mem extractThreadId (List.mem_cons_self t rest)
  · rw [if_neg hC1] at h ⊢
    by_cases hpe : prev = ""
    · cases ts with
      | nil =>
        have hC2 : ¬ (prev = "" ∧ ([] : List Json).length > 0) :=
          fun hc => by simp at hc
        rw [if_neg hC2] at h
        exact absurd hpe h
      | cons t rest =>
        have hC2 : prev = "" ∧ (t :: rest).length > 0 := ⟨hpe, by simp⟩
        rw [if_pos hC2]
        exact List.mem_map_of_mem extractThreadId (List.mem_cons_self t rest)
    · have hC2 : ¬ (prev = "" ∧ ts.length > 0) := fun hc => hpe hc.1
      rw [if_neg hC2] at h ⊢
      have hany : (ts.any fun t => extractThreadId t == prev) = true := by
        by_contra hno
        exact hC1 ⟨hpe, hno⟩
      exact (any_extractThreadId_iff ts prev).mp hany

/-- When the reconciliation ends empty, the first fetched thread id is
itself empty (or there is no thread at all). -/
lemma reconcileActiveThreadId_eq_empty (prev : String) (ts : List Json)
    (h : reconcileActiveThreadId prev ts = "") :
    firstThreadId ts = "" := by
  cases ts with
  | nil => rfl
  | cons t rest =>
    simp only [reconcileActiveThreadId] at h
    by_cases hA : (if prev ≠ "" ∧ ¬ ((t :: rest).any fun u => extractThreadId u == prev) = true
        then "" else prev) = ""
    · rw [hA] at h
      have hC2 : ("" : String) = "" ∧ (t :: rest).length > 0 := ⟨rfl, by simp⟩
      rw [if_pos hC2] at h
      exact h
    · have hC2 : ¬ ((if prev ≠ "" ∧ ¬ ((t :: rest).any fun u => extractThreadId u == prev) = true
          then "" else prev) = "" ∧ (t :: rest).length > 0) := fun hc => hA hc.1
      rw [if_neg hC2] at h
      exact absurd h hA

/-- The reconciliation is idempotent for a fixed fetched collection. -/
lemma reconcileActiveThreadId_idem (prev : String) (ts : List Json) :
    reconcileActiveThreadId (reconcileActiveThreadId prev ts) ts =
      reconcileActiveThreadId prev ts := by
  by_cases hr : reconcileActiveThreadId prev ts = ""
  · rw [hr, reconcileActiveThreadId_of_not_mem "" ts (Or.inr rfl)]
    exact reconcileActiveThreadId_eq_empty prev ts hr
  · exact reconcileActiveThreadId_of_mem _ ts hr (reconcileActiveThreadId_mem prev ts hr)

/-- `refreshThreads` never touches the active workspace id. -/
lemma refreshThreads_activeWorkspaceId (s : AppState) (payload : Json) :
    (refreshThreads s payload).activeWorkspaceId = s.activeWorkspaceId := by
  by_cases hw : s.activeWorkspaceId = "" <;> simp [refreshThreads, hw]

/-- The active thread id after `refreshThreads`: untouched without an
active workspace, reconciled against the fetched collection otherwise. -/
lemma refreshThreads_activeThreadId (s : AppState) (payload : Json) :
    (refreshThreads s payload).activeThreadId =
      if s.activeWorkspaceId = "" then s.activeThreadId
      else reconcileActiveThreadId s.activeThreadId (extractThreadList payload) := by
  by_cases hw : s.activeWorkspaceId = "" <;> simp [refreshThreads, hw]

/-- The stored collection after `refreshThreads`: cleared without an active
workspace, replaced wholesale by the extracted collection otherwise. -/
lemma refreshThreads_threads (s : AppState) (payload : Json) :
    (refreshThreads s payload).threads =
      if s.activeWorkspaceId = "" then [] else extractThreadList payload := by
  by_cases hw : s.activeWorkspaceId = "" <;> simp [refreshThreads, hw]

/-- C1: for every thread collection fetched by `refreshThreads()` for the
active workspace: a non-empty previously active thread id present in the
new collection is kept; one that is absent (or empty, meaning no previous
selection) is replaced by the first thread id, or by the empty string when
the collection is empty; and afterwards a non-empty active thread id is
always an element of the stored thread collection, which is exactly the
fetched one. -/
theorem refreshThreads_reconciles_active_thread
    (s : AppState) (payload : Json) (h : s.activeWorkspaceId ≠ "") :
    (s.activeThreadId ≠ "" →
       s.activeThreadId ∈ (extractThreadList payload).map extractThreadId →
       (refreshThreads s payload).activeThreadId = s.activeThreadId)
    ∧ (s.activeThreadId ∉ (extractThreadList payload).map extractThreadId ∨
         s.activeThreadId = "" →
       (refreshThreads s payload).activeThreadId = firstThreadId (extractThreadList payload))
    ∧ ((refreshThreads s payload).activeThreadId ≠ "" →
       (refreshThreads s payload).activeThreadId ∈
         (refreshThreads s payload).threads.map extractThreadId)
    ∧ (refreshThreads s payload).threads = extractThreadList payload := by
  rw [refreshThreads_activeThreadId, refreshThreads_threads, if_neg h, if_neg h]
  exact ⟨fun hne hmem => reconcileActiveThreadId_of_mem _ _ hne hmem,
         fun hc => reconcileActiveThreadId_of_not_mem _ _ hc,
         fun hne => reconcileActiveThreadId_mem _ _ hne,
         rfl⟩

/-- C1 witness: a concrete run in which the stale id "zz" is replaced by
the first fetched thread id "t1". -/
theorem refreshThreads_reconciles_active_thread_witness :
    ("w1" : String) ≠ "" ∧
    (refreshThreads ⟨[], "w1", [], "zz"⟩
        (.obj [("threads",
          .arr [.obj [("id", .str "t1")], .obj [("id", .str "t2")]])])).activeThreadId
      = "t1" := by
  refine ⟨by decide, ?_⟩
  have h := refreshThreads_reconciles_active_thread ⟨[], "w1", [], "zz"⟩
    (.obj [("threads", .arr [.obj [("id", .str "t1")], .obj [("id", .str "t2")]])])
    (by decide)
  have h2 := h.2.1 (Or.inl (by decide))
  rw [h2]
  rfl

/-- C8: calling `refreshThreads()` twice with no intervening mutation (the
same fetched payload both times) yields the same active thread id after
the second call as after the first. -/
theorem refreshThreads_idempotent (s : AppState) (payload : Json) :
    (refreshThreads (refreshThreads s payload) payload).activeThreadId =
      (refreshThreads s payload).activeThreadId := by
  by_cases hw : s.activeWorkspaceId = ""
  · simp [refreshThreads, hw]
  · rw [refreshThreads_activeThreadId (refreshThreads s payload) payload,
      refreshThreads_activeWorkspaceId, if_neg hw,
      refreshThreads_activeThreadId s payload, if_neg hw]
    exact reconcileActiveThreadId_idem _ _

/-! ## Reconciliation lemmas for `refreshWorkspaces` -/

/-- `String(workspaces[0].id || "")` guarded by emptiness: the id the
workspace reconciliation defaults to. -/
def firstWorkspaceId (ws : List Json) : String :=
  match ws with
  | [] => ""
  | w :: _ => workspaceIdOrEmpty w

/-- The `.some(...)` membership probe of `renderWorkspaces` agrees with
membership among the stringified workspace ids. -/
lemma any_workspaceIdRaw_iff (ws : List Json) (x : String) :
    (ws.any fun w => workspaceIdRaw w == x) = true ↔ x ∈ ws.map workspaceIdRaw := by
  simp only [List.any_eq_true, beq_iff_eq, List.mem_map]

/-- `renderWorkspaces` rewrites only the active workspace id. -/
lemma renderWorkspaces_eq (s : AppState) :
    renderWorkspaces s =
      { s with activeWorkspaceId :=
          match s.workspaces with
          | [] => ""
          | w0 :: _ =>
            if s.workspaces.any fun w => workspaceIdRaw w == s.activeWorkspaceId then
              s.activeWorkspaceId
            else workspaceIdOrEmpty w0 } := by
  cases hws : s.workspaces <;> simp [renderWorkspaces, hws]

/-- `renderWorkspaces` keeps the workspace collection itself. -/
lemma renderWorkspaces_workspaces (s : AppState) :
    (renderWorkspaces s).workspaces = s.workspaces := by
  cases hws : s.workspaces <;> simp [renderWorkspaces, hws]

/-- The active workspace id after `renderWorkspaces`, in membership form:
kept when some workspace stringifies to it, else the first workspace id,
else empty. -/
lemma renderWorkspaces_active (s : AppState) :
    (renderWorkspaces s).activeWorkspaceId =
      if s.activeWorkspaceId ∈ s.workspaces.map workspaceIdRaw then s.activeWorkspaceId
      else firstWorkspaceId s.workspaces := by
  cases hws : s.workspaces with
  | nil => simp [renderWorkspaces, hws, firstWorkspaceId]
  | cons w0 rest =>
    by_cases hmem : s.activeWorkspaceId ∈ (w0 :: rest).map workspaceIdRaw
    · rw [if_pos hmem]
      have hany : ((w0 :: rest).any fun w => workspaceIdRaw w == s.activeWorkspaceId) = true :=
        (any_workspaceIdRaw_iff _ _).mpr hmem
      simp [renderWorkspaces, hws, hany]
    · rw [if_neg hmem]
      have hany : ¬ ((w0 :: rest).any fun w => workspaceIdRaw w == s.activeWorkspaceId) = true :=
        fun h => hmem ((any_workspaceIdRaw_iff _ _).mp h)
      simp [renderWorkspaces, hws, hany, firstWorkspaceId]

/-- `refreshThreads` never touches the workspace collection. -/
lemma refreshThreads_workspaces (s : AppState) (payload : Json) :
    (refreshThreads s payload).workspaces = s.workspaces := by
  by_cases hw : s.activeWorkspaceId = "" <;> simp [refreshThreads, hw]

/-- C2: after `refreshWorkspaces()` the fetched collection replaces local
state wholesale; the active workspace id is the prior id when some fetched
workspace still stringifies to it, else the first item id, else empty when
the collection is empty; and when no active workspace remains, the thread
collection is cleared rather than refreshed (while an active workspace
triggers the thread refresh against the thread payload). -/
theorem refreshWorkspaces_reconciles (s : AppState) (wsPayload tsPayload : Json) :
    (refreshWorkspaces s wsPayload tsPayload).workspaces = extractWorkspaceList wsPayload
    ∧ (s.activeWorkspaceId ∈ (extractWorkspaceList wsPayload).map workspaceIdRaw →
        (refreshWorkspaces s wsPayload tsPayload).activeWorkspaceId = s.activeWorkspaceId)
    ∧ (s.activeWorkspaceId ∉ (extractWorkspaceList wsPayload).map workspaceIdRaw →
        (refreshWorkspaces s wsPayload tsPayload).activeWorkspaceId =
          firstWorkspaceId (extractWorkspaceList wsPayload))
    ∧ ((refreshWorkspaces s wsPayload tsPayload).activeWorkspaceId = "" →
        (refreshWorkspaces s wsPayload tsPayload).threads = [])
    ∧ ((refreshWorkspaces s wsPayload tsPayload).activeWorkspaceId ≠ "" →
        (refreshWorkspaces s wsPayload tsPayload).threads = extractThreadList tsPayload) := by
  have hdef : refreshWorkspaces s wsPayload tsPayload =
      (if (renderWorkspaces { s with workspaces := extractWorkspaceList wsPayload }).activeWorkspaceId ≠ "" then
        refreshThreads (renderWorkspaces { s with workspaces := extractWorkspaceList wsPayload }) tsPayload
      else { renderWorkspaces { s with workspaces := extractWorkspaceList wsPayload } with threads := [] }) := rfl
  have hact : (renderWorkspaces { s with workspaces := extractWorkspaceList wsPayload }).activeWorkspaceId =
      if s.activeWorkspaceId ∈ (extractWorkspaceList wsPayload).map workspaceIdRaw then s.activeWorkspaceId
      else firstWorkspaceId (extractWorkspaceList wsPayload) := renderWorkspaces_active _
  have hws1 : (renderWorkspaces { s with workspaces := extractWorkspaceList wsPayload }).workspaces =
      extractWorkspaceList wsPayload := renderWorkspaces_workspaces _
  by_cases hne : (renderWorkspaces { s with workspaces := extractWorkspaceList wsPayload }).activeWorkspaceId = ""
  · rw [hdef, if_neg (fun hc => hc hne)]
    refine ⟨hws1, ?_, ?_, fun _ => rfl, fun hc => absurd hne hc⟩
    · intro hmem
      show (renderWorkspaces { s with workspaces := extractWorkspaceList wsPayload }).activeWorkspaceId
        = s.activeWorkspaceId
      rw [hact, if_pos hmem]
    · intro hmem
      show (renderWorkspaces { s with workspaces := extractWorkspaceList wsPayload }).activeWorkspaceId
        = firstWorkspaceId (extractWorkspaceList wsPayload)
      rw [hact, if_neg hmem]
  · rw [hdef, if_pos hne]
    refine ⟨?_, ?_, ?_, ?_, ?_⟩
    · rw [refreshThreads_workspaces]
      exact hws1
    · intro hmem
      rw [refreshThreads_activeWorkspaceId, hact, if_pos hmem]
    · intro hmem
      rw [refreshThreads_activeWorkspaceId, hact, if_neg hmem]
    · intro hc
      rw [refreshThreads_activeWorkspaceId] at hc
      exact absurd hc hne
    · intro _
      rw [refreshThreads_threads, if_neg hne]

/-- C2 witness: a concrete run over two fetched workspaces in which the
prior active id "w2" is still present and therefore kept, with the thread
collection refreshed from the thread payload. -/
theorem refreshWorkspaces_reconciles_witness :
    ("w2" : String) ∈
      (extractWorkspaceList
        (.obj [("workspaces",
          .arr [.obj [("id", .str "w1")], .obj [("id", .str "w2")]])])).map workspaceIdRaw
    ∧ (refreshWorkspaces ⟨[], "w2", [], ""⟩
        (.obj [("workspaces", .arr [.obj [("id", .str "w1")], .obj [("id", .str "w2")]])])
        (.obj [("threads", .arr [.obj [("id", .str "t1")]])])).activeWorkspaceId = "w2" := by
  refine ⟨by decide, ?_⟩
  exact (refreshWorkspaces_reconciles ⟨[], "w2", [], ""⟩
    (.obj [("workspaces", .arr [.obj [("id", .str "w1")], .obj [("id", .str "w2")]])])
    (.obj [("threads", .arr [.obj [("id", .str "t1")]])])).2.1 (by decide)

/-! ## The workspace-switch handler (claim about clearing the thread
selection) -/

/-- C3 counterexample: in the `workspace-select` change handler the active
thread id is NOT cleared before the thread fetch for the new workspace:
switching from "w1" (whose thread "t1" is selected) to "w2" leaves the
state holding the pair ("w2", "t1") while the fetch is in flight. -/
theorem workspaceSelect_pre_keeps_stale_thread :
    (workspaceSelectPre ⟨[], "w1", [], "t1"⟩ "w2").activeWorkspaceId = "w2"
    ∧ (workspaceSelectPre ⟨[], "w1", [], "t1"⟩ "w2").activeThreadId = "t1"
    ∧ ("t1" : String) ≠ "" := ⟨rfl, rfl, by decide⟩

/-- C3 amended: switching workspace overwrites the active workspace id at
once and keeps the old thread id until the fetch for the new workspace
completes; only the reconciliation that runs on completion removes a
thread id that the new collection does not carry (defaulting to the first
fetched thread, or empty), so after the handler finishes a non-empty
active thread id belongs to the new thread collection. -/
theorem workspaceSelectChange_reconciles (s : AppState) (value : String)
    (tsPayload : Json) (hv : value ≠ "") :
    (workspaceSelectPre s value).activeThreadId = s.activeThreadId
    ∧ ((workspaceSelectChange s value tsPayload).activeThreadId ≠ "" →
        (workspaceSelectChange s value tsPayload).activeThreadId ∈
          (extractThreadList tsPayload).map extractThreadId)
    ∧ (s.activeThreadId ∉ (extractThreadList tsPayload).map extractThreadId ∨
         s.activeThreadId = "" →
        (workspaceSelectChange s value tsPayload).activeThreadId =
          firstThreadId (extractThreadList tsPayload)) := by
  have h := refreshThreads_reconciles_active_thread (workspaceSelectPre s value) tsPayload hv
  refine ⟨rfl, ?_, ?_⟩
  · intro hne
    have h3 := h.2.2.1 hne
    rw [h.2.2.2] at h3
    exact h3
  · intro hc
    exact h.2.1 hc

/-- C3 amended witness: switching to "w2" with stale thread id "t1" ends
with the first thread "t9" of the freshly fetched collection selected. -/
theorem workspaceSelectChange_reconciles_witness :
    ("w2" : String) ≠ "" ∧
    (workspaceSelectChange ⟨[], "w1", [], "t1"⟩ "w2"
        (.obj [("threads", .arr [.obj [("id", .str "t9")]])])).activeThreadId = "t9" := by
  refine ⟨by decide, ?_⟩
  have h := workspaceSelectChange_reconciles ⟨[], "w1", [], "t1"⟩ "w2"
    (.obj [("threads", .arr [.obj [("id", .str "t9")]])]) (by decide)
  rw [h.2.2 (Or.inl (by decide))]
  rfl

/-! ## Refresh Scheduler state machine -/

/-- A schedule request while a timer is already armed is a no-op. -/
lemma scheduleRefreshThreads_of_isSome (w : String) (s : SyncState)
    (h : s.refreshThreadsTimer.isSome = true) :
    scheduleRefreshThreads w s = s := by
  by_cases h1 : w = "" ∨ w ≠ s.activeWorkspaceId
  · simp [scheduleRefreshThreads, h1]
  · simp [scheduleRefreshThreads, h1, h]

/-- Iterating schedule requests on an armed state changes nothing. -/
lemma scheduleRefreshThreads_iterate_of_isSome (w : String) (n : Nat) (s : SyncState)
    (h : s.refreshThreadsTimer.isSome = true) :
    (scheduleRefreshThreads w)^[n] s = s := by
  induction n with
  | zero => rfl
  | succ n ih =>
    rw [Function.iterate_succ_apply, scheduleRefreshThreads_of_isSome w s h]
    exact ih

/-- A schedule request only ever touches the timer slot. -/
lemma scheduleRefreshThreads_fields (w : String) (s : SyncState) :
    (scheduleRefreshThreads w s).activeWorkspaceId = s.activeWorkspaceId
    ∧ (scheduleRefreshThreads w s).activeThreadId = s.activeThreadId
    ∧ (scheduleRefreshThreads w s).fetchTrace = s.fetchTrace := by
  by_cases h1 : w = "" ∨ w ≠ s.activeWorkspaceId
  · simp [scheduleRefreshThreads, h1]
  · by_cases h2 : s.refreshThreadsTimer.isSome = true <;>
      simp [scheduleRefreshThreads, h1, h2]

/-- C4: the Refresh Scheduler contract. A request is a no-op unless its
workspace id equals the active workspace and no refresh is pending; an
accepted request (for a non-empty active workspace) arms the single timer
with the fixed 600-unit delay, and firing it issues exactly one thread
re-fetch for that workspace and clears the pending slot; N requests within
the delay window still produce exactly one re-fetch; and a request whose
workspace id differs from the (now) active workspace is dropped outright
and can never contribute a fetch for that workspace. -/
theorem scheduleRefreshThreads_contract (s : SyncState) (w : String) :
    (¬ (w = s.activeWorkspaceId ∧ s.refreshThreadsTimer = none) →
       scheduleRefreshThreads w s = s)
    ∧ (w = s.activeWorkspaceId → w ≠ "" → s.refreshThreadsTimer = none →
       (scheduleRefreshThreads w s).refreshThreadsTimer = some REFRESH_THREADS_DELAY
       ∧ fireRefreshTimer (scheduleRefreshThreads w s) =
           { s with fetchTrace := s.fetchTrace ++ [w] })
    ∧ (∀ n : Nat, w = s.activeWorkspaceId → w ≠ "" → s.refreshThreadsTimer = none →
       (fireRefreshTimer ((scheduleRefreshThreads w)^[n + 1] s)).fetchTrace =
         s.fetchTrace ++ [w])
    ∧ (w ≠ s.activeWorkspaceId →
       scheduleRefreshThreads w s = s
       ∧ (w ∉ s.fetchTrace → w ∉ (fireRefreshTimer (scheduleRefreshThreads w s)).fetchTrace)) := by
  obtain ⟨act, th, tm, tr⟩ := s
  have harm : ∀ (hw : w = act) (hne : w ≠ "") (hnone : tm = none),
      scheduleRefreshThreads w ⟨act, th, tm, tr⟩ =
        ⟨act, th, some REFRESH_THREADS_DELAY, tr⟩ := by
    intro hw hne hnone
    subst hw
    subst hnone
    simp [scheduleRefreshThreads, hne]
  refine ⟨?_, ?_, ?_, ?_⟩
  · intro hno
    by_cases h1 : w = "" ∨ w ≠ act
    · simp [scheduleRefreshThreads, h1]
    · push_neg at h1
      have hw : w = act := h1.2
      have hsome : tm.isSome = true := by
        cases tm with
        | none => exact absurd ⟨hw, rfl⟩ hno
        | some d => rfl
      exact scheduleRefreshThreads_of_isSome w _ hsome
  · intro hw hne hnone
    rw [harm hw hne hnone]
    subst hw
    constructor
    · rfl
    · simp [fireRefreshTimer, hne]
      exact hnone.symm
  · intro n hw hne hnone
    rw [Function.iterate_succ_apply,
      scheduleRefreshThreads_iterate_of_isSome w n _ (by rw [harm hw hne hnone]; rfl),
      harm hw hne hnone]
    subst hw
    simp [fireRefreshTimer, hne]
  · intro hwne
    have hdrop : scheduleRefreshThreads w ⟨act, th, tm, tr⟩ = ⟨act, th, tm, tr⟩ := by
      simp [scheduleRefreshThreads, Or.inr hwne]
    refine ⟨hdrop, ?_⟩
    intro hnotin
    rw [hdrop]
    cases tm with
    | none => simpa [fireRefreshTimer] using hnotin
    | some d =>
      by_cases hact : act = ""
      · simpa [fireRefreshTimer, hact] using hnotin
      · simp only [fireRefreshTimer]
        simp [hact, List.mem_append, hnotin, hwne]

/-- C4 witness: from an idle state with active workspace "w1", one request
arms the 600-unit timer, three coalesced requests still yield exactly one
fetch on expiry, and a stale request for "w2" is dropped. -/
theorem scheduleRefreshThreads_contract_witness :
    (scheduleRefreshThreads "w1" ⟨"w1", "", none, []⟩).refreshThreadsTimer =
      some REFRESH_THREADS_DELAY
    ∧ (fireRefreshTimer ((scheduleRefreshThreads "w1")^[3] ⟨"w1", "", none, []⟩)).fetchTrace = ["w1"]
    ∧ scheduleRefreshThreads "w2" ⟨"w1", "", none, []⟩ = ⟨"w1", "", none, []⟩ := by
  have h := scheduleRefreshThreads_contract ⟨"w1", "", none, []⟩ "w1"
  have h2 := scheduleRefreshThreads_contract ⟨"w1", "", none, []⟩ "w2"
  exact ⟨(h.2.1 rfl (by decide) rfl).1,
         by simpa using h.2.2.1 2 rfl (by decide) rfl,
         (h2.2.2.2 (by decide)).1⟩

/-- C5: routing of an `app-server-event` push envelope (for a state with a
non-empty active workspace and a non-empty nested thread id): when the
event workspace equals the active workspace, the thread id is adopted only
if no thread is currently active (a non-empty selection is never
overwritten), the active workspace is untouched, and a refresh is pending
for it afterwards; when the event workspace differs, the state is entirely
unchanged — nothing adopted, nothing scheduled. -/
theorem handleAppServerEvent_routing (s : SyncState) (wsId threadId : String)
    (hT : threadId ≠ "") (hA : s.activeWorkspaceId ≠ "") :
    (wsId = s.activeWorkspaceId →
       ((handleAppServerEvent wsId threadId s).activeThreadId =
          if s.activeThreadId = "" then threadId else s.activeThreadId)
       ∧ (handleAppServerEvent wsId threadId s).activeWorkspaceId = s.activeWorkspaceId
       ∧ (handleAppServerEvent wsId threadId s).refreshThreadsTimer.isSome = true)
    ∧ (wsId ≠ s.activeWorkspaceId → handleAppServerEvent wsId threadId s = s) := by
  constructor
  · intro hw
    have hcond : threadId ≠ "" ∧ wsId = s.activeWorkspaceId := ⟨hT, hw⟩
    simp only [handleAppServerEvent, if_pos hcond]
    set s1 := if s.activeThreadId = "" then { s with activeThreadId := threadId } else s
      with hs1
    have h1a : s1.activeWorkspaceId = s.activeWorkspaceId := by
      by_cases hth : s.activeThreadId = "" <;> simp [hs1, hth]
    have h1t : s1.activeThreadId =
        if s.activeThreadId = "" then threadId else s.activeThreadId := by
      by_cases hth : s.activeThreadId = "" <;> simp [hs1, hth]
    refine ⟨?_, ?_, ?_⟩
    · rw [(scheduleRefreshThreads_fields wsId s1).2.1, h1t]
    · rw [(scheduleRefreshThreads_fields wsId s1).1, h1a]
    · have hcondw : ¬ (wsId = "" ∨ wsId ≠ s1.activeWorkspaceId) := by
        intro hor
        cases hor with
        | inl h0 => exact hA (by rw [← hw]; exact h0)
        | inr hne => exact hne (by rw [h1a]; exact hw)
      by_cases h2 : s1.refreshThreadsTimer.isSome = true
      · rw [scheduleRefreshThreads_of_isSome _ _ h2]
        exact h2
      · simp [scheduleRefreshThreads, hcondw, h2]
  · intro hw
    have hno : ¬ (threadId ≠ "" ∧ wsId = s.activeWorkspaceId) := fun hc => hw hc.2
    simp [handleAppServerEvent, hno]

/-- C5 witness: with "w1" active and no active thread, an event for "w1"
carrying thread "t9" adopts it and leaves a refresh pending, while the
same event for "w2" changes nothing. -/
theorem handleAppServerEvent_routing_witness :
    (handleAppServerEvent "w1" "t9" ⟨"w1", "", none, []⟩).activeThreadId = "t9"
    ∧ (handleAppServerEvent "w1" "t9" ⟨"w1", "", none, []⟩).refreshThreadsTimer.isSome = true
    ∧ handleAppServerEvent "w2" "t9" ⟨"w1", "", none, []⟩ = ⟨"w1", "", none, []⟩ := by
  have h := handleAppServerEvent_routing ⟨"w1", "", none, []⟩ "w1" "t9" (by decide) (by decide)
  have h2 := handleAppServerEvent_routing ⟨"w1", "", none, []⟩ "w2" "t9" (by decide) (by decide)
  refine ⟨?_, (h.1 rfl).2.2, h2.2 (by decide)⟩
  rw [(h.1 rfl).1]
  rfl

/-! ## Request Client (`api`) contract -/

/-- C6 counterexample: a failing response whose decoded body carries a
PRESENT but falsy `error` field (the empty string) is reported with the
generic "status statusText" message, not with the error field value — the
code tests `payload.error` for truthiness, not presence. -/
theorem api_error_field_present_but_falsy :
    (Json.obj [("error", Json.str "")]).get "error" = some (Json.str "")
    ∧ api ⟨false, 404, "Not Found", "\x7b\"error\": \"\"\x7d",
        some (.obj [("error", .str "")])⟩ = .error "404 Not Found"
    ∧ ("404 Not Found" : String) ≠ Json.jsToString (Json.str "") := by
  refine ⟨rfl, rfl, by decide⟩

/-- C6 amended: a successful response never throws — the decoded body is
returned, with an empty body yielding `null` and an undecodable non-empty
body wrapped as `{raw: text}`; a failing response throws, with the decoded
error field as message only when the payload and its `error` field are
both truthy, and the generic "status statusText" string otherwise
(including when the `error` field is present but falsy). -/
theorem api_contract (r : GatewayResponse) :
    (r.ok = true → api r = .ok (apiPayload r))
    ∧ (r.ok = true → r.bodyText = "" → api r = .ok none)
    ∧ (r.ok = true → r.bodyText ≠ "" → r.parsed = none →
        api r = .ok (some (.obj [("raw", .str r.bodyText)])))
    ∧ (r.ok = false → ∀ payload e, apiPayload r = some payload →
        payload.truthy = true → payload.getTruthy "error" = some e →
        api r = .error (Json.jsToString e))
    ∧ (r.ok = false →
        (∀ payload, apiPayload r = some payload →
          payload.truthy = false ∨ payload.getTruthy "error" = none) →
        api r = .error (toString r.status ++ " " ++ r.statusText)) := by
  refine ⟨?_, ?_, ?_, ?_, ?_⟩
  · intro h
    simp [api, h]
  · intro h hb
    simp [api, apiPayload, h, hb]
  · intro h hb hp
    simp [api, apiPayload, h, hb, hp]
  · intro h payload e hp htr he
    simp [api, h, apiErrorMessage, hp, htr, he]
  · intro h hfall
    cases happ : apiPayload r with
    | none => simp [api, h, apiErrorMessage, happ]
    | some payload =>
      cases hfall payload happ with
      | inl htr => simp [api, h, apiErrorMessage, happ, htr]
      | inr he => simp [api, h, apiErrorMessage, happ, he]

/-- C6 witness: a successful response with an undecodable body returns the
raw wrapper, and a failing response with a truthy error field throws with
that field as the message. -/
theorem api_contract_witness :
    api ⟨true, 200, "OK", "not json", none⟩ = .ok (some (.obj [("raw", .str "not json")]))
    ∧ api ⟨false, 401, "Unauthorized", "\x7b\"error\": \"bad token\"\x7d",
        some (.obj [("error", .str "bad token")])⟩ = .error "bad token" := by
  have h1 := api_contract ⟨true, 200, "OK", "not json", none⟩
  have h2 := api_contract ⟨false, 401, "Unauthorized", "\x7b\"error\": \"bad token\"\x7d",
    some (.obj [("error", .str "bad token")])⟩
  exact ⟨h1.2.2.1 rfl (by decide) rfl,
         h2.2.2.2.1 rfl (.obj [("error", .str "bad token")]) (.str "bad token") rfl rfl rfl⟩

/-! ## Synchronous preconditions of `sendMessage` and `resumeThread` -/

/-- C7: precondition violations throw synchronously before any network
call. A `.error` result is produced before a request body exists, so no
request is issued: `sendMessage()` fails with no active workspace, with no
resolvable thread id, or with empty/whitespace-only trimmed text;
`resumeThread()` fails with no active workspace or no resolvable thread
id; and a non-empty thread-id input field takes precedence over the stored
active thread id. -/
theorem preconditions_before_network
    (s : AppState) (threadIdInput messageInput accessModeInput : String) :
    (s.activeWorkspaceId = "" →
       sendMessage s threadIdInput messageInput accessModeInput =
         .error "Select a workspace first"
       ∧ resumeThread s threadIdInput = .error "Select a workspace first")
    ∧ (s.activeWorkspaceId ≠ "" →
       resolveThreadId threadIdInput s.activeThreadId = "" →
       sendMessage s threadIdInput messageInput accessModeInput =
         .error "Select a thread first"
       ∧ resumeThread s threadIdInput = .error "Select a thread first")
    ∧ (s.activeWorkspaceId ≠ "" →
       resolveThreadId threadIdInput s.activeThreadId ≠ "" →
       jsTrim messageInput = "" →
       sendMessage s threadIdInput messageInput accessModeInput =
         .error "Enter a message first")
    ∧ (threadIdInput ≠ "" →
       resolveThreadId threadIdInput s.activeThreadId = jsTrim threadIdInput) := by
  refine ⟨?_, ?_, ?_, ?_⟩
  · intro hw
    simp [sendMessage, resumeThread, hw]
  · intro hw hr
    simp [sendMessage, resumeThread, hw, hr]
  · intro hw hr hm
    simp [sendMessage, hw, hr, hm]
  · intro hne
    simp [resolveThreadId, hne]

/-- C7 witness: concrete precondition failures for each guard, and the
input-field id "tX" overriding the stored id "t1". -/
theorem preconditions_before_network_witness :
    sendMessage ⟨[], "", [], "t1"⟩ "" "hi" "" = .error "Select a workspace first"
    ∧ sendMessage ⟨[], "w1", [], ""⟩ " " "hi" "" = .error "Select a thread first"
    ∧ resumeThread ⟨[], "w1", [], ""⟩ "" = .error "Select a thread first"
    ∧ sendMessage ⟨[], "w1", [], "t1"⟩ "" "   " "" = .error "Enter a message first"
    ∧ resolveThreadId " tX " "t1" = jsTrim " tX " := by
  have h1 := preconditions_before_network ⟨[], "", [], "t1"⟩ "" "hi" ""
  have h2 := preconditions_before_network ⟨[], "w1", [], ""⟩ " " "hi" ""
  have h3 := preconditions_before_network ⟨[], "w1", [], ""⟩ "" "hi" ""
  have h4 := preconditions_before_network ⟨[], "w1", [], "t1"⟩ "" "   " ""
  have h5 := preconditions_before_network ⟨[], "w1", [], "t1"⟩ " tX " "m" ""
  exact ⟨(h1.1 rfl).1,
         (h2.2.1 (by decide) (by decide)).1,
         (h3.2.1 (by decide) (by decide)).2,
         h4.2.2.1 (by decide) (by decide) (by decide),
         h5.2.2.2 (by decide)⟩

/-! ## Event Log capacity -/

/-- The eviction loop computes a prefix: keep the newest
`MAX_EVENT_LINES` entries (the log is stored newest-first). -/
lemma evictOldest_eq_take (l : List EventLine) :
    evictOldest l = l.take MAX_EVENT_LINES := by
  suffices hgen : ∀ (n : Nat) (l : List EventLine), l.length ≤ n →
      evictOldest l = l.take MAX_EVENT_LINES by
    exact hgen l.length l le_rfl
  intro n
  induction n with
  | zero =>
    intro l hl
    have : l = [] := List.eq_nil_of_length_eq_zero (Nat.le_zero.mp hl)
    subst this
    rw [evictOldest, dif_neg (by simp), List.take_nil]
  | succ n ih =>
    intro l hl
    rw [evictOldest]
    by_cases h : MAX_EVENT_LINES < l.length
    · rw [dif_pos h, ih l.dropLast (by rw [List.length_dropLast]; omega)]
      rw [List.dropLast_eq_take, List.take_take,
        inf_of_le_left (show MAX_EVENT_LINES ≤ l.length - 1 by omega)]
    · rw [dif_neg h]
      exact (List.take_of_length_le (by omega)).symm

/-- Taking a capped suffix argument does not change a capped append. -/
lemma take_append_take (A B : List EventLine) (n : Nat) :
    (A ++ B.take n).take n = (A ++ B).take n := by
  rw [List.take_append_eq_append_take, List.take_append_eq_append_take, List.take_take,
    inf_of_le_left (Nat.sub_le n A.length)]

/-- Folding `appendEvent` over a burst, starting from any log within
capacity, keeps exactly the newest `MAX_EVENT_LINES` entries. -/
lemma foldl_appendEvent (es : List EventLine) (l : List EventLine)
    (hl : l.length ≤ MAX_EVENT_LINES) :
    es.foldl appendEvent l = (es.reverse ++ l).take MAX_EVENT_LINES := by
  induction es generalizing l with
  | nil =>
    simp [List.take_of_length_le hl]
  | cons e es ih =>
    rw [List.foldl_cons,
      ih (appendEvent l e) (by rw [appendEvent, evictOldest_eq_take]; exact List.length_take_le _ _)]
    rw [appendEvent, evictOldest_eq_take, take_append_take, List.reverse_cons,
      List.append_assoc, List.singleton_append]

/-- C9: the Event Log never exceeds `MAX_EVENT_LINES` (300) entries no
matter how many events are appended: appending a whole burst to an empty
log keeps exactly the most recent at-most-300 entries, newest first,
evicting the oldest. -/
theorem appendEvent_bounded (es : List EventLine) :
    (es.foldl appendEvent []).length ≤ MAX_EVENT_LINES
    ∧ es.foldl appendEvent [] = es.reverse.take MAX_EVENT_LINES := by
  have h := foldl_appendEvent es [] (by simp)
  rw [List.append_nil] at h
  exact ⟨h ▸ List.length_take_le _ _, h⟩

/-! ## Credential save/clear -/

/-- Removing the entry makes the key unreadable. -/
lemma storageGetItem_removeItem (storage : List (String × String)) (k : String) :
    storageGetItem (storageRemoveItem storage k) k = none := by
  induction storage with
  | nil => rfl
  | cons e rest ih =>
    obtain ⟨k1, v1⟩ := e
    by_cases he : k1 = k
    · simpa [storageRemoveItem, storageGetItem, List.filter_cons, he] using ih
    · have hne : (k == k1) = false := by
        simp only [beq_eq_false_iff_ne, ne_eq]
        exact fun hc => he hc.symm
      simpa [storageRemoveItem, storageGetItem, List.filter_cons, he, List.lookup, hne]
        using ih

/-- C10: saving a credential whose trimmed value is empty behaves exactly
like `clear()`: the in-memory token becomes empty, the persisted entry
under the fixed storage key is removed (not stored blank), and subsequent
calls attach no authorization header. -/
theorem saveToken_empty_behaves_as_clear (s : TokenState) (inputValue : String)
    (h : jsTrim inputValue = "") :
    saveTokenClick s inputValue = clearTokenClick s
    ∧ (saveTokenClick s inputValue).token = ""
    ∧ storageGetItem (saveTokenClick s inputValue).storage TOKEN_STORAGE_KEY = none
    ∧ (∀ extra, authHeaders (saveTokenClick s inputValue).token extra = extra) := by
  have h1 : saveTokenClick s inputValue = clearTokenClick s := by
    simp [saveTokenClick, clearTokenClick, h]
  refine ⟨h1, ?_, ?_, ?_⟩
  · rw [h1]
    rfl
  · rw [h1]
    exact storageGetItem_removeItem s.storage TOKEN_STORAGE_KEY
  · intro extra
    rw [h1]
    simp [clearTokenClick, authHeaders]

/-- C10 witness: saving whitespace-only input over a stored token equals
clearing, and the resulting headers carry no authorization entry. -/
theorem saveToken_empty_behaves_as_clear_witness :
    jsTrim "   " = ""
    ∧ saveTokenClick ⟨"old", [(TOKEN_STORAGE_KEY, "old")]⟩ "   " =
        clearTokenClick ⟨"old", [(TOKEN_STORAGE_KEY, "old")]⟩
    ∧ authHeaders (saveTokenClick ⟨"old", [(TOKEN_STORAGE_KEY, "old")]⟩ "   ").token
        [("Content-Type", "application/json")] = [("Content-Type", "application/json")] := by
  have h := saveToken_empty_behaves_as_clear ⟨"old", [(TOKEN_STORAGE_KEY, "old")]⟩ "   "
    (by decide)
  exact ⟨by decide, h.1, h.2.2.2 [("Content-Type", "application/json")]⟩
